import Mathlib

/-!
Verification of the DisasterConnect realtime voice session manager.

The development shallowly embeds the `GeminiLiveService` class and the UI
location-resolution callback.  Machine state is a record of the service's
fields; externally visible actions (resource creation/release, channel
sends, UI callbacks) are recorded as an explicit trace of `Effect`s, so
theorems can speak about which actions an operation performs and how often.
Times and durations are modelled as rationals.
-/

namespace DisasterConnect

/-! ## PCM codec

Modelled from the spec: the repository's `audioUtils` module
(`float32ToInt16PCM`, `decodeAudioData`) is not among the provided source
files, only its callers are.  Per the spec, `encode` maps each sample
linearly to a 16-bit signed integer (multiply by 32767 and round, clamped
to the representable range), little-endian, concatenated; `decode` is the
inverse mapping. -/

/-- Modelled from the spec: one sample to a clamped 16-bit signed integer. -/
def encodeSample (x : ℚ) : ℤ :=
  max (-32768) (min 32767 (round (x * 32767)))

/-- Modelled from the spec: `float32ToInt16PCM` of `audioUtils`. -/
def float32ToInt16PCM (xs : List ℚ) : List ℤ :=
  xs.map encodeSample

/-- Modelled from the spec: a 16-bit integer as two little-endian bytes. -/
def int16ToLEBytes (i : ℤ) : List ℕ :=
  let u := (i % 65536).toNat
  [u % 256, u / 256]

/-- Modelled from the spec: the byte stream produced by the encoder. -/
def pcmEncodeBytes (xs : List ℚ) : List ℕ :=
  (float32ToInt16PCM xs).flatMap int16ToLEBytes

/-- Modelled from the spec: two little-endian bytes back to a signed 16-bit value. -/
def bytesToInt16 (b0 b1 : ℕ) : ℤ :=
  let u := b0 + 256 * b1
  if u < 32768 then (u : ℤ) else (u : ℤ) - 65536

/-- Modelled from the spec: inverse of the linear sample map. -/
def decodeSample (i : ℤ) : ℚ :=
  (i : ℚ) / 32767

/-- Modelled from the spec: decoding a little-endian 16-bit PCM byte stream. -/
def decodePCMBytes : List ℕ → List ℚ
  | b0 :: b1 :: rest => decodeSample (bytesToInt16 b0 b1) :: decodePCMBytes rest
  | _ => []

/-! ## Service state and effect trace -/

/-- A tool-call response entry as built in `handleMessage`:
`{ id: fc.id, name: fc.name, response: { result: { status, ticketId } } }`. -/
structure ToolResponse where
  id : String
  name : String
  status : String
  ticketId : String
  deriving DecidableEq, Repr

/-- Externally visible actions of the service, in the order performed. -/
inductive Effect where
  | statusChange (msg : String)
  | logError (msg : String)
  | createInputContext (id : ℕ)
  | createOutputContext (id : ℕ)
  | getUserMedia (id : ℕ)
  | disconnectProcessor (id : ℕ)
  | disconnectSource (id : ℕ)
  | stopTracks (id : ℕ)
  | closeContext (id : ℕ)
  | audioLevel (level : ℚ)
  | sendRealtime (payload : List ℕ)
  | scheduleAudio (start : ℚ)
  | reportSubmitted (args : ℕ)
  | sendToolResponse (responses : List ToolResponse)
  deriving DecidableEq, Repr

/-- The mutable fields of `GeminiLiveService`.  Resources are identified by
numeric handles; `none` is the JS `null`. -/
structure ServiceState where
  inputAudioContext : Option ℕ
  outputAudioContext : Option ℕ
  stream : Option ℕ
  processor : Option ℕ
  source : Option ℕ
  nextStartTime : ℚ
  currentSession : Option ℕ
  deriving DecidableEq, Repr

/-- Field initializers of the class: everything `null`, `nextStartTime = 0`. -/
def initialState : ServiceState :=
  { inputAudioContext := none, outputAudioContext := none, stream := none,
    processor := none, source := none, nextStartTime := 0, currentSession := none }

/-- Result of a `connect` call: final state, the trace of actions performed,
and whether the returned promise resolved (`ok = false` models the call
rejecting, i.e. the thrown `getUserMedia` failure propagating). -/
structure ConnectResult where
  state : ServiceState
  effects : List Effect
  ok : Bool
  deriving DecidableEq, Repr

/-- `connect(userLocation)`: emits a status, unconditionally creates fresh
input/output audio contexts (handles `nid`, `nid+1`), requests the
microphone (handle `nid+2`); on success opens the channel and stores the
session (handle `nid+3`).  When the microphone request rejects, the error
propagates and no further statement of `connect` runs. -/
def connect (s : ServiceState) (nid : ℕ) (micOk : Bool) : ConnectResult :=
  let s1 := { s with inputAudioContext := some nid, outputAudioContext := some (nid + 1) }
  let es1 := [Effect.statusChange "Initializing Audio...",
              Effect.createInputContext nid, Effect.createOutputContext (nid + 1),
              Effect.statusChange "Requesting Mic..."]
  if micOk then
    { state := { s1 with stream := some (nid + 2), currentSession := some (nid + 3) },
      effects := es1 ++ [Effect.getUserMedia (nid + 2),
                         Effect.statusChange "Connecting to HQ..."],
      ok := true }
  else
    { state := s1, effects := es1, ok := false }

/-- `stop()`: guarded releases of each held resource, then all fields are
nulled and a final status is emitted.  `nextStartTime` is not reset. -/
def stop (s : ServiceState) : ServiceState × List Effect :=
  let e1 := match s.processor with
    | some p => [Effect.disconnectProcessor p]
    | none => []
  let e2 := match s.source with
    | some q => [Effect.disconnectSource q]
    | none => []
  let e3 := match s.stream with
    | some t => [Effect.stopTracks t]
    | none => []
  let e4 := match s.inputAudioContext with
    | some c => [Effect.closeContext c]
    | none => []
  let e5 := match s.outputAudioContext with
    | some c => [Effect.closeContext c]
    | none => []
  ({ s with processor := none, source := none, stream := none,
            inputAudioContext := none, outputAudioContext := none,
            currentSession := none },
   e1 ++ e2 ++ e3 ++ e4 ++ e5 ++ [Effect.statusChange "Disconnected"])

/-- The channel `onclose` callback: a status notification, then `stop()`. -/
def handleClose (s : ServiceState) : ServiceState × List Effect :=
  let r := stop s
  (r.1, Effect.statusChange "Disconnected" :: r.2)

/-- The channel `onerror` callback: logs and emits a status; nothing else. -/
def handleError (s : ServiceState) : ServiceState × List Effect :=
  (s, [Effect.logError "Live API Error:", Effect.statusChange "Connection Error"])

/-- A connected session, as left by a successful `connect` plus `handleOpen`:
every resource field is held. -/
def connectedState : ServiceState :=
  { inputAudioContext := some 0, outputAudioContext := some 1, stream := some 2,
    processor := some 3, source := some 4, nextStartTime := 0, currentSession := some 5 }

/-! ## Theorems: lifecycle claims -/

/-- C7: `stop()` is idempotent.  From any state, one call nulls every
resource field, and a second call observes every field as `null`, releases
nothing (its trace is just the status notification) and leaves the state
unchanged; hence all later calls do the same. -/
theorem stop_idempotent (s : ServiceState) :
    (stop s).1.inputAudioContext = none ∧
    (stop s).1.outputAudioContext = none ∧
    (stop s).1.stream = none ∧
    (stop s).1.processor = none ∧
    (stop s).1.source = none ∧
    (stop s).1.currentSession = none ∧
    stop (stop s).1 = ((stop s).1, [Effect.statusChange "Disconnected"]) := by
  refine ⟨rfl, rfl, rfl, rfl, rfl, rfl, ?_⟩
  simp [stop]

/-- C3: the code violates the no-double-open claim.  Calling `connect()`
twice with no intervening teardown creates a second set of device
resources: the first audio contexts (handles 0, 1) and stream (handle 2)
are replaced by fresh ones (handles 4, 5, 6) and are never closed or
stopped anywhere in the combined trace — the first set leaks. -/
theorem connect_twice_creates_second_resource_set :
    (connect initialState 0 true).state.inputAudioContext = some 0 ∧
    (connect initialState 0 true).state.outputAudioContext = some 1 ∧
    (connect initialState 0 true).state.stream = some 2 ∧
    (connect (connect initialState 0 true).state 4 true).state.inputAudioContext = some 4 ∧
    (connect (connect initialState 0 true).state 4 true).state.outputAudioContext = some 5 ∧
    (connect (connect initialState 0 true).state 4 true).state.stream = some 6 ∧
    (connect (connect initialState 0 true).state 4 true).ok = true ∧
    Effect.closeContext 0 ∉
      (connect initialState 0 true).effects ++
        (connect (connect initialState 0 true).state 4 true).effects ∧
    Effect.closeContext 1 ∉
      (connect initialState 0 true).effects ++
        (connect (connect initialState 0 true).state 4 true).effects ∧
    Effect.stopTracks 2 ∉
      (connect initialState 0 true).effects ++
        (connect (connect initialState 0 true).state 4 true).effects := by
  decide

/-- C8: the code leaves the audio contexts open when the microphone is
denied.  The failure does propagate (`ok = false`), but the input and
output contexts created before the microphone request stay assigned and no
close action appears in the trace. -/
theorem mic_denied_leaves_contexts_open :
    (connect initialState 0 false).ok = false ∧
    (connect initialState 0 false).state.inputAudioContext = some 0 ∧
    (connect initialState 0 false).state.outputAudioContext = some 1 ∧
    Effect.closeContext 0 ∉ (connect initialState 0 false).effects ∧
    Effect.closeContext 1 ∉ (connect initialState 0 false).effects := by
  decide

/-- C4 counterexample: on a fully connected session the `onerror` callback
performs no teardown — the state is unchanged, the stream is still held,
and the trace contains only a log and a status notification, refuting the
claim that on-error releases every resource. -/
theorem onerror_no_teardown_counterexample :
    (handleError connectedState).1 = connectedState ∧
    (handleError connectedState).1.stream ≠ none ∧
    (handleError connectedState).1.currentSession ≠ none ∧
    (handleError connectedState).2 =
      [Effect.logError "Live API Error:", Effect.statusChange "Connection Error"] := by
  decide

/-- C4 (amended): the `onclose` callback performs the same full teardown as
`stop()` — same resulting state, same release actions after its status
notification, every resource field cleared — while the `onerror` callback
only logs and emits a status notification, leaving the state unchanged. -/
theorem close_teardown_error_status_only (s : ServiceState) :
    (handleClose s).1 = (stop s).1 ∧
    (handleClose s).2 = Effect.statusChange "Disconnected" :: (stop s).2 ∧
    (handleClose s).1.inputAudioContext = none ∧
    (handleClose s).1.outputAudioContext = none ∧
    (handleClose s).1.stream = none ∧
    (handleClose s).1.processor = none ∧
    (handleClose s).1.source = none ∧
    (handleClose s).1.currentSession = none ∧
    (handleError s).1 = s ∧
    (handleError s).2 =
      [Effect.logError "Live API Error:", Effect.statusChange "Connection Error"] := by
  exact ⟨rfl, rfl, rfl, rfl, rfl, rfl, rfl, rfl, rfl, rfl⟩

/-! ## Inbound message handling -/

/-- One entry of `message.toolCall.functionCalls`; the argument object is an
opaque token, passed through unchanged. -/
structure FunctionCall where
  id : String
  name : String
  args : ℕ
  deriving DecidableEq, Repr

/-- The loop body of the tool-call section of `handleMessage`: for each
request named `reportEmergency`, invoke `onReportSubmitted` with its
arguments and push a success response carrying its id; other names do
nothing.  Returns the callback trace and the accumulated responses. -/
def processToolCalls (tid : String) : List FunctionCall → List Effect × List ToolResponse
  | [] => ([], [])
  | fc :: rest =>
    let r := processToolCalls tid rest
    if fc.name = "reportEmergency" then
      (Effect.reportSubmitted fc.args :: r.1,
       { id := fc.id, name := fc.name, status := "success", ticketId := tid } :: r.2)
    else r

/-- The tool-call section of `handleMessage`: run the loop, then send the
batch of responses when at least one was built and a session is held. -/
def handleToolCall (session : Option ℕ) (calls : List FunctionCall) (tid : String) :
    List Effect :=
  let r := processToolCalls tid calls
  r.1 ++ (if 0 < r.2.length ∧ session.isSome then [Effect.sendToolResponse r.2] else [])

/-- The audio section of `handleMessage` for a message carrying inline audio
data arriving at output-clock time `t`: guarded on the output context,
bump `nextStartTime` to at least `t`, then — if the chunk decodes, to a
buffer of duration `decoded` — schedule it at `nextStartTime` and advance
the clock by the duration; a decode failure is caught and logged. -/
def handleAudioChunk (s : ServiceState) (t : ℚ) (decoded : Option ℚ) :
    ServiceState × List Effect :=
  match s.outputAudioContext with
  | none => (s, [])
  | some _ =>
    let bumped := max s.nextStartTime t
    match decoded with
    | some dur =>
        ({ s with nextStartTime := bumped + dur }, [Effect.scheduleAudio bumped])
    | none =>
        ({ s with nextStartTime := bumped }, [Effect.logError "Error decoding audio"])

/-- The `onaudioprocess` capture callback installed by `handleOpen`: always
compute the frame loudness and notify `onAudioLevel`, then send the encoded
frame only when a session is currently held.  (The source reports
`sqrt(sum of squares / n)`; the square root is irrational in general, so the
trace records the radicand — which claims about this callback never
inspect.) -/
def onAudioProcess (s : ServiceState) (frame : List ℚ) : List Effect :=
  let sumSq := frame.foldl (fun acc x => acc + x * x) 0
  let meanSq := sumSq / (frame.length : ℚ)
  Effect.audioLevel meanSq ::
    (match s.currentSession with
     | some _ => [Effect.sendRealtime (pcmEncodeBytes frame)]
     | none => [])

/-! ## UI location resolution -/

/-- `GeoLocation` of `types.ts`. -/
structure GeoLocation where
  lat : ℚ
  lng : ℚ
  deriving DecidableEq, Repr

/-- The hardcoded map-center fallback used by the App. -/
def defaultCenter : GeoLocation :=
  { lat := 34.0522, lng := -118.2437 }

/-- The location-resolution logic of the App's `onReportSubmitted` handler.
`pLat`/`pLng` are `Number(data.latitude)`/`Number(data.longitude)` with
`none` standing for `NaN`; `device` is `userLocationRef.current`.  Returns
the resolved location and the `isDeviceLocation` flag. -/
def resolveReportLocation (pLat pLng : Option ℚ) (device : Option GeoLocation) :
    GeoLocation × Bool :=
  if pLat.isSome ∧ pLng.isSome ∧ (pLat ≠ some 0 ∨ pLng ≠ some 0) then
    ({ lat := pLat.getD 0, lng := pLng.getD 0 }, false)
  else
    match device with
    | some d => (d, true)
    | none => (defaultCenter, false)

/-! ## Theorems: message handling claims -/

/-- Characterization of the tool-call loop as filter/map over the requests. -/
theorem processToolCalls_eq (tid : String) (calls : List FunctionCall) :
    processToolCalls tid calls
      = ((calls.filter fun fc => fc.name == "reportEmergency").map
            fun fc => Effect.reportSubmitted fc.args,
         (calls.filter fun fc => fc.name == "reportEmergency").map
            fun fc => { id := fc.id, name := fc.name, status := "success",
                        ticketId := tid }) := by
  induction calls with
  | nil => rfl
  | cons fc rest ih =>
    by_cases h : fc.name = "reportEmergency" <;>
      simp [processToolCalls, ih, List.filter_cons, h]

/-- C1: on a message carrying tool-call requests, handled while a session is
held, the trace is exactly one `onReportSubmitted` invocation per request
named `reportEmergency`, carrying exactly that request's argument object and
in request order, followed by exactly one response batch (sent only when at
least one such request exists) holding exactly one success response per
`reportEmergency` request with that request's id; requests with any other
name contribute neither a callback nor a response. -/
theorem handleMessage_reportEmergency_spec (k : ℕ) (calls : List FunctionCall)
    (tid : String) :
    handleToolCall (some k) calls tid
      = ((calls.filter fun fc => fc.name == "reportEmergency").map
            fun fc => Effect.reportSubmitted fc.args)
        ++ (if (calls.filter fun fc => fc.name == "reportEmergency") = [] then []
            else [Effect.sendToolResponse
                ((calls.filter fun fc => fc.name == "reportEmergency").map
                  fun fc => { id := fc.id, name := fc.name, status := "success",
                              ticketId := tid })]) := by
  simp only [handleToolCall, processToolCalls_eq]
  by_cases h : (calls.filter fun fc => fc.name == "reportEmergency") = []
  · simp [h]
  · have hlen : 0 < ((calls.filter fun fc => fc.name == "reportEmergency").map
        (fun fc => ({ id := fc.id, name := fc.name, status := "success",
                      ticketId := tid } : ToolResponse))).length := by
      simpa [List.length_pos] using h
    simp [h, hlen]

/-- C5: a capture frame arriving while no session is held produces exactly
the audio-level notification computed from the frame — no send, no error,
nothing queued. -/
theorem frame_dropped_when_no_session (s : ServiceState) (frame : List ℚ)
    (h : s.currentSession = none) :
    onAudioProcess s frame
      = [Effect.audioLevel
          (frame.foldl (fun acc x => acc + x * x) 0 / (frame.length : ℚ))] := by
  simp [onAudioProcess, h]

/-- C5 witness: a concrete frame on the initial (session-less) state. -/
theorem frame_dropped_when_no_session_witness :
    onAudioProcess initialState [(1 : ℚ)/2] = [Effect.audioLevel (1/4)] := by
  rw [frame_dropped_when_no_session initialState [(1 : ℚ)/2] rfl]
  norm_num

/-- C6: a failed decode is isolated.  Every resource field and the session
reference are unchanged, the trace is only the error log (no teardown, no
send), and a subsequent successfully decoded chunk at output-clock time `u`
with duration `dur` is scheduled no earlier than `u` and no earlier than any
previously scheduled buffer's end (any `prevEnd ≤ nextStartTime`). -/
theorem decode_failure_isolated (s : ServiceState) (t u dur prevEnd : ℚ)
    (hctx : s.outputAudioContext ≠ none)
    (hprev : prevEnd ≤ s.nextStartTime) :
    (handleAudioChunk s t none).1.inputAudioContext = s.inputAudioContext ∧
    (handleAudioChunk s t none).1.outputAudioContext = s.outputAudioContext ∧
    (handleAudioChunk s t none).1.stream = s.stream ∧
    (handleAudioChunk s t none).1.processor = s.processor ∧
    (handleAudioChunk s t none).1.source = s.source ∧
    (handleAudioChunk s t none).1.currentSession = s.currentSession ∧
    (handleAudioChunk s t none).2 = [Effect.logError "Error decoding audio"] ∧
    ∃ st, (handleAudioChunk (handleAudioChunk s t none).1 u (some dur)).2
            = [Effect.scheduleAudio st] ∧ u ≤ st ∧ prevEnd ≤ st := by
  obtain ⟨c, hc⟩ := Option.ne_none_iff_exists.mp hctx
  have hc2 : s.outputAudioContext = some c := hc.symm
  have h1 : handleAudioChunk s t none
      = ({ s with nextStartTime := max s.nextStartTime t },
         [Effect.logError "Error decoding audio"]) := by
    simp [handleAudioChunk, hc2]
  have h2 : handleAudioChunk { s with nextStartTime := max s.nextStartTime t } u (some dur)
      = ({ s with nextStartTime := max (max s.nextStartTime t) u + dur },
         [Effect.scheduleAudio (max (max s.nextStartTime t) u)]) := by
    simp [handleAudioChunk, hc2]
  rw [h1]
  refine ⟨rfl, rfl, rfl, rfl, rfl, rfl, rfl, ?_⟩
  rw [h2]
  exact ⟨max (max s.nextStartTime t) u, rfl, le_max_right _ _,
    hprev.trans ((le_max_left _ _).trans (le_max_left _ _))⟩

/-- C6 witness: a decode failure on a concrete connected session followed by
a successful chunk. -/
theorem decode_failure_isolated_witness :
    (handleAudioChunk connectedState 3 none).1.currentSession
        = connectedState.currentSession ∧
    ∃ st, (handleAudioChunk (handleAudioChunk connectedState 3 none).1 5 (some 1)).2
            = [Effect.scheduleAudio st] ∧ (5 : ℚ) ≤ st ∧ (0 : ℚ) ≤ st := by
  have h := decode_failure_isolated connectedState 3 5 1 0 (by decide) (by decide)
  exact ⟨h.2.2.2.2.2.1, h.2.2.2.2.2.2.2⟩

/-- C10: resolution of a report draft's location.  A draft whose converted
latitude and longitude are both 0, or either of which is `NaN`, carries no
coordinates: the report gets the freshest device location when one is known
and the hardcoded center otherwise; coordinates that are both numeric with
at least one nonzero component are used verbatim (and not flagged as device
location). -/
theorem report_location_resolution (pLat pLng : Option ℚ)
    (device : Option GeoLocation) (a b : ℚ) :
    ((pLat = some 0 ∧ pLng = some 0) ∨ pLat = none ∨ pLng = none →
      resolveReportLocation pLat pLng device
        = (device.getD defaultCenter, device.isSome)) ∧
    (pLat = some a → pLng = some b → (a ≠ 0 ∨ b ≠ 0) →
      resolveReportLocation pLat pLng device = ({ lat := a, lng := b }, false)) := by
  constructor
  · intro h
    have hcond : ¬ (pLat.isSome ∧ pLng.isSome ∧ (pLat ≠ some 0 ∨ pLng ≠ some 0)) := by
      rcases h with ⟨h1, h2⟩ | h1 | h1
      · simp [h1, h2]
      · simp [h1]
      · simp [h1]
    simp only [resolveReportLocation.eq_def]
    rw [if_neg hcond]
    cases device <;> rfl
  · intro ha hb hne
    subst ha
    subst hb
    have hcond : (some a).isSome ∧ (some b).isSome ∧
        ((some a : Option ℚ) ≠ some 0 ∨ (some b : Option ℚ) ≠ some 0) := by
      rcases hne with h | h
      · exact ⟨rfl, rfl, Or.inl (by simpa using h)⟩
      · exact ⟨rfl, rfl, Or.inr (by simpa using h)⟩
    simp only [resolveReportLocation.eq_def]
    rw [if_pos hcond]
    rfl

/-- C10 witness: zero coordinates fall back to the known device location;
nonzero agent coordinates are used verbatim. -/
theorem report_location_resolution_witness :
    resolveReportLocation (some 0) (some 0) (some { lat := 1, lng := 2 })
        = ({ lat := 1, lng := 2 }, true) ∧
    resolveReportLocation (some 0) (some 0) none = (defaultCenter, false) ∧
    resolveReportLocation (some 34.05) (some (-118.24)) (some { lat := 1, lng := 2 })
        = ({ lat := 34.05, lng := -118.24 }, false) := by
  refine ⟨?_, ?_, ?_⟩
  · exact ((report_location_resolution (some 0) (some 0)
      (some { lat := 1, lng := 2 }) 0 0).1 (Or.inl ⟨rfl, rfl⟩))
  · exact ((report_location_resolution (some 0) (some 0) none 0 0).1
      (Or.inl ⟨rfl, rfl⟩))
  · exact ((report_location_resolution (some 34.05) (some (-118.24))
      (some { lat := 1, lng := 2 }) 34.05 (-118.24)).2 rfl rfl
      (Or.inl (by norm_num)))

/-! ## Playback scheduling (the audio section of `handleMessage` over a run) -/

/-- The playback scheduling of a sequence of successfully decoded chunks in
arrival order.  Each chunk is a pair `(t, d)`: the output-clock time `t`
when it is handled and its decoded duration `d`.  Per chunk the handler
bumps `nextStartTime` to at least `t`, schedules the buffer at the bumped
`nextStartTime` and advances the clock by `d` (source lines 178–186).
Returns the scheduled start times and the final `nextStartTime`. -/
def scheduleRun (nst : ℚ) : List (ℚ × ℚ) → List ℚ × ℚ
  | [] => ([], nst)
  | c :: rest =>
    let start := max nst c.1
    let r := scheduleRun (start + c.2) rest
    (start :: r.1, r.2)

/-- Every value taken by `nextStartTime` during a run, in write order: the
initial value, then per chunk the bumped value and the advanced value. -/
def nstUpdates (nst : ℚ) : List (ℚ × ℚ) → List ℚ
  | [] => [nst]
  | c :: rest => nst :: max nst c.1 :: nstUpdates (max nst c.1 + c.2) rest

theorem scheduleRun_length (nst : ℚ) (chunks : List (ℚ × ℚ)) :
    ((scheduleRun nst chunks).1).length = chunks.length := by
  induction chunks generalizing nst with
  | nil => rfl
  | cons c rest ih => simp [scheduleRun, ih]

theorem scheduleRun_get_succ (nst : ℚ) (chunks : List (ℚ × ℚ)) (i : ℕ)
    (hc : i + 1 < chunks.length)
    (hs : i + 1 < ((scheduleRun nst chunks).1).length) :
    (scheduleRun nst chunks).1[i + 1]
      = max ((scheduleRun nst chunks).1[i] + (chunks[i]).2) ((chunks[i + 1]).1) := by
  induction chunks generalizing nst i with
  | nil => simp at hc
  | cons c rest ih =>
    cases i with
    | zero =>
      cases rest with
      | nil => simp at hc
      | cons c2 r2 => simp [scheduleRun]
    | succ j =>
      have hc2 : j + 1 < rest.length := by
        simpa using hc
      have hs2 : j + 1 < ((scheduleRun (max nst c.1 + c.2) rest).1).length := by
        rw [scheduleRun_length]
        exact hc2
      have := ih (max nst c.1 + c.2) j hc2 hs2
      simpa [scheduleRun] using this

theorem nstUpdates_head_cons (nst : ℚ) (chunks : List (ℚ × ℚ)) :
    ∃ l, nstUpdates nst chunks = nst :: l := by
  cases chunks with
  | nil => exact ⟨[], rfl⟩
  | cons c rest => exact ⟨_, rfl⟩

theorem nstUpdates_chain (nst : ℚ) (chunks : List (ℚ × ℚ))
    (hd : ∀ c ∈ chunks, 0 ≤ c.2) :
    List.Chain' (fun a b => a ≤ b) (nstUpdates nst chunks) := by
  induction chunks generalizing nst with
  | nil => simp [nstUpdates]
  | cons c rest ih =>
    obtain ⟨l, hl⟩ := nstUpdates_head_cons (max nst c.1 + c.2) rest
    have hchain := ih (max nst c.1 + c.2) fun z hz => hd z (List.mem_cons_of_mem _ hz)
    rw [hl] at hchain
    simp only [nstUpdates, hl]
    refine List.chain'_cons.mpr ⟨le_max_left _ _, List.chain'_cons.mpr ⟨?_, hchain⟩⟩
    exact le_add_of_nonneg_right (hd c (List.mem_cons_self _ _))

/-- C2: over any run of successfully decoded buffers handled in arrival
order (with nonnegative durations), the start scheduled for buffer `i+1` is
at least the start of buffer `i` plus its duration, with equality exactly
enforced whenever the playhead clock is already at or ahead of the output
clock when buffer `i+1` is handled; and the sequence of values written to
`nextStartTime` never decreases. -/
theorem playhead_schedule_monotone (nst0 : ℚ) (chunks : List (ℚ × ℚ))
    (hd : ∀ c ∈ chunks, 0 ≤ c.2) (i : ℕ)
    (hc : i + 1 < chunks.length)
    (hs : i + 1 < ((scheduleRun nst0 chunks).1).length) :
    (scheduleRun nst0 chunks).1[i] + (chunks[i]).2 ≤ (scheduleRun nst0 chunks).1[i + 1]
    ∧ ((chunks[i + 1]).1 ≤ (scheduleRun nst0 chunks).1[i] + (chunks[i]).2 →
        (scheduleRun nst0 chunks).1[i + 1]
          = (scheduleRun nst0 chunks).1[i] + (chunks[i]).2)
    ∧ List.Chain' (fun a b => a ≤ b) (nstUpdates nst0 chunks) := by
  have hget := scheduleRun_get_succ nst0 chunks i hc hs
  refine ⟨?_, ?_, nstUpdates_chain nst0 chunks hd⟩
  · rw [hget]
    exact le_max_left _ _
  · intro h
    rw [hget]
    exact max_eq_left h

/-- C2 witness: a concrete run of three decoded buffers. -/
theorem playhead_schedule_monotone_witness :
    List.Chain' (fun a b => a ≤ b)
      (nstUpdates 0 [((0 : ℚ), 2), ((5 : ℚ), 1), ((3 : ℚ), 2)]) := by
  have h := playhead_schedule_monotone 0 [((0 : ℚ), 2), ((5 : ℚ), 1), ((3 : ℚ), 2)]
    (by decide) 0 (by decide) (by rw [scheduleRun_length]; decide)
  exact h.2.2

/-! ## Codec round-trip -/

theorem round_scaled_bounds (x : ℚ) (h1 : -1 ≤ x) (h2 : x ≤ 1) :
    -32768 < round (x * 32767) ∧ round (x * 32767) < 32768 := by
  constructor
  · have hlt : (x * 32767 : ℚ) - 1 / 2 < (round (x * 32767) : ℚ) :=
      sub_half_lt_round _
    have hcast : ((-32768 : ℤ) : ℚ) < (round (x * 32767) : ℚ) := by
      push_cast
      nlinarith
    exact_mod_cast hcast
  · have hle : ((round (x * 32767) : ℚ)) ≤ x * 32767 + 1 / 2 :=
      round_le_add_half _
    have hcast : ((round (x * 32767) : ℚ)) < ((32768 : ℤ) : ℚ) := by
      push_cast
      nlinarith
    exact_mod_cast hcast

theorem encodeSample_eq (x : ℚ) (h1 : -1 ≤ x) (h2 : x ≤ 1) :
    encodeSample x = round (x * 32767) := by
  obtain ⟨hl, hr⟩ := round_scaled_bounds x h1 h2
  unfold encodeSample
  rw [min_eq_right (by omega), max_eq_right (by omega)]

theorem encodeSample_range (x : ℚ) :
    -32768 ≤ encodeSample x ∧ encodeSample x ≤ 32767 := by
  unfold encodeSample
  exact ⟨le_max_left _ _, max_le (by norm_num) (min_le_left _ _)⟩

/-- A 16-bit value survives the little-endian byte split and reassembly. -/
theorem bytes_roundtrip (i : ℤ) (h1 : -32768 ≤ i) (h2 : i ≤ 32767) :
    bytesToInt16 ((i % 65536).toNat % 256) ((i % 65536).toNat / 256) = i := by
  have hu : (i % 65536).toNat % 256 + 256 * ((i % 65536).toNat / 256)
      = (i % 65536).toNat := Nat.mod_add_div _ _
  simp only [bytesToInt16]
  rw [hu]
  split
  · omega
  · omega

theorem decodePCMBytes_cons (i : ℤ) (rest : List ℕ) :
    decodePCMBytes (int16ToLEBytes i ++ rest)
      = decodeSample (bytesToInt16 ((i % 65536).toNat % 256) ((i % 65536).toNat / 256))
          :: decodePCMBytes rest := rfl

theorem decodeSample_encodeSample (x : ℚ) (h1 : -1 ≤ x) (h2 : x ≤ 1) :
    |decodeSample (encodeSample x) - x| ≤ 1 / 32767 := by
  rw [encodeSample_eq x h1 h2]
  unfold decodeSample
  have key : ((round (x * 32767) : ℤ) : ℚ) / 32767 - x
      = (((round (x * 32767) : ℤ) : ℚ) - x * 32767) / 32767 := by
    ring
  rw [key, abs_div, abs_sub_comm]
  have habs : |(32767 : ℚ)| = 32767 := by norm_num
  rw [habs]
  have hround : |x * 32767 - ((round (x * 32767) : ℤ) : ℚ)| ≤ 1 / 2 :=
    abs_sub_round (x * 32767)
  have hone : |x * 32767 - ((round (x * 32767) : ℤ) : ℚ)| ≤ 1 :=
    hround.trans (by norm_num)
  exact (div_le_div_iff_of_pos_right (by norm_num : (0 : ℚ) < 32767)).mpr hone

/-- C9: decoding the little-endian 16-bit PCM byte stream produced by the
encoder reproduces every sample of a sequence with values in `[-1, 1]`
within one quantization step of `1/32767`. -/
theorem pcm_roundtrip_within_one_step (xs : List ℚ)
    (hx : ∀ x ∈ xs, -1 ≤ x ∧ x ≤ 1) :
    List.Forall₂ (fun x y => |y - x| ≤ 1 / 32767) xs
      (decodePCMBytes (pcmEncodeBytes xs)) := by
  induction xs with
  | nil => exact List.Forall₂.nil
  | cons x rest ih =>
    have hx1 := hx x (List.mem_cons_self _ _)
    have hcons : pcmEncodeBytes (x :: rest)
        = int16ToLEBytes (encodeSample x) ++ pcmEncodeBytes rest := by
      simp [pcmEncodeBytes, float32ToInt16PCM]
    rw [hcons, decodePCMBytes_cons,
        bytes_roundtrip (encodeSample x) (encodeSample_range x).1 (encodeSample_range x).2]
    exact List.Forall₂.cons (decodeSample_encodeSample x hx1.1 hx1.2)
      (ih fun z hz => hx z (List.mem_cons_of_mem _ hz))

/-- C9 witness: a concrete three-sample sequence round-trips within one
quantization step. -/
theorem pcm_roundtrip_within_one_step_witness :
    List.Forall₂ (fun x y => |y - x| ≤ 1 / 32767) [(1 : ℚ)/2, -1, 1]
      (decodePCMBytes (pcmEncodeBytes [(1 : ℚ)/2, -1, 1])) :=
  pcm_roundtrip_within_one_step [(1 : ℚ)/2, -1, 1] (by
    intro z hz
    simp only [List.mem_cons, List.not_mem_nil, or_false] at hz
    rcases hz with rfl | rfl | rfl <;> norm_num)

end DisasterConnect
